import Mathlib

set_option maxHeartbeats 1000000

/-!
Verification of the NPS task scheduler core
(src/automation/task-scheduler.py).

The Python module is embedded shallowly:

* a persisted task record becomes the structure `Task`;
* the contents of the config file, as seen by `json.load`, become `Storage`;
* the scheduler's mutable state (its task list, the config file, and the
  schedule library's job registry) becomes `SysState`, and every method of
  `TaskScheduler` becomes a pure state-passing function;
* Python exceptions become `Except` results; a method that mutates state
  before raising returns the mutated state together with the error.

The repository depends on two pieces of code that are not part of the
repository itself: the external `schedule` PyPI library (rule validation and
next-run computation) and the standard library's `json` serialization.
Definitions embedding those parts carry a doc comment starting
"Modelled from the spec:" and follow the specification's description of
them (sections 4.1 and 4.2 of the spec).
-/

deriving instance DecidableEq for Except

namespace NPS

/-- A persisted task record: one of the dicts stored in `tasks.json`.
`enabled` and `last_run` are optional because a loaded record may lack
those keys (the seeded example tasks do). -/
structure Task where
  name : String
  command : String
  schedule_type : String
  schedule_time : String
  enabled : Option Bool
  last_run : Option String
deriving DecidableEq, Repr

/-- Contents of the config file as seen by `Path.exists` plus `json.load`:
absent, present but not parseable, or a parsed task list. -/
inductive Storage
  | absent
  | corrupt (raw : String)
  | content (tasks : List Task)
deriving DecidableEq, Repr

/-- The error `json.load` raises on unparseable content (the spec's
`StorageCorrupt`). -/
inductive StorageCorrupt
  | jsonDecodeError
deriving DecidableEq, Repr

/-- Exceptions that can escape `TaskScheduler.schedule_task`: `ValueError`
from `int()` or tuple unpacking of `split()`, `AttributeError` from
`getattr` on a bad weekday, and the schedule library's `ScheduleValueError`
from `at()` (the spec's `InvalidScheduleSpec` family). -/
inductive SchedError
  | valueError
  | attributeError
  | scheduleValueError
deriving DecidableEq, Repr

/-- A recurrence rule as registered with the schedule library by
`schedule_task`: `interval` carries the result of Python `int()` (which can
be zero or negative), the calendar rules carry validated fields. -/
inductive Rule
  | interval (minutes : Int)
  | hourly (minute : Nat)
  | daily (hour : Nat) (minute : Nat)
  | weekly (weekday : Nat) (hour : Nat) (minute : Nat)
deriving DecidableEq, Repr

/-- One entry of the schedule library's job registry: the parsed rule plus
the index (into the scheduler's task list) of the task dict captured by the
`job` closure in `schedule_task`. -/
structure Job where
  rule : Rule
  taskIdx : Nat
deriving DecidableEq, Repr

/-- The whole mutable state touched by `TaskScheduler`: `self.tasks`, the
config file, and the schedule library's global job list. -/
structure SysState where
  sched_tasks : List Task
  storage : Storage
  jobs : List Job
deriving DecidableEq, Repr

/-- Accumulate the value of a digit string; fails on a non-digit. -/
def digitsValGo : List Char → Nat → Option Nat
  | [], acc => some acc
  | c :: rest, acc =>
      if c.isDigit then digitsValGo rest (acc * 10 + (c.toNat - 48)) else none

/-- Value of a nonempty all-digit character list. -/
def digitsVal (cs : List Char) : Option Nat :=
  if cs.isEmpty then none else digitsValGo cs 0

/-- Strip leading and trailing whitespace from a character list. -/
def trimChars (cs : List Char) : List Char :=
  ((cs.dropWhile Char.isWhitespace).reverse.dropWhile Char.isWhitespace).reverse

/-- Python `int(s)` on a decimal string, as used by `schedule_task` for the
interval rule: surrounding whitespace allowed, one optional sign, then
digits; `none` is Python's `ValueError`. -/
def pyInt (s : String) : Option Int :=
  match trimChars s.toList with
  | '-' :: rest => (digitsVal rest).map (fun n => -(n : Int))
  | '+' :: rest => (digitsVal rest).map (fun n => (n : Int))
  | cs => (digitsVal cs).map (fun n => (n : Int))

/-- Python `s.split()` with no argument (used by `schedule_task` for weekly
rules): split on whitespace runs, dropping empty words. -/
def splitWsAux : List Char → List Char → List String
  | [], [] => []
  | [], acc => [String.mk acc.reverse]
  | c :: rest, acc =>
      if c.isWhitespace then
        if acc.isEmpty then splitWsAux rest []
        else String.mk acc.reverse :: splitWsAux rest []
      else splitWsAux rest (c :: acc)

/-- Python `s.split()` on a string. -/
def pySplit (s : String) : List String := splitWsAux s.toList []

/-- Split a character list on the colon character. -/
def split_colon : List Char → List (List Char)
  | [] => [[]]
  | a :: rest =>
      let r := split_colon rest
      if a = ':' then [] :: r
      else
        match r with
        | [] => [[a]]
        | g :: gs => (a :: g) :: gs

/-- Numeric value of a two-character digit field such as "04" or "59". -/
def two_digit_val (cs : List Char) : Option Nat :=
  match cs with
  | [a, b] =>
      if a.isDigit && b.isDigit then some ((a.toNat - 48) * 10 + (b.toNat - 48))
      else none
  | _ => none

/-- Modelled from the spec: the schedule library's validation of an hourly
at-minute spec, a two-digit minute-of-hour string 00..59 (section 4.2; the
library itself is an external dependency, not under src). -/
def parse_hourly_minute (s : String) : Option Nat :=
  match two_digit_val s.toList with
  | some m => if m ≤ 59 then some m else none
  | none => none

/-- Modelled from the spec: the schedule library's validation of an "HH:MM"
24-hour time spec, hour 00..23 and minute 00..59 (section 4.2). -/
def parse_hhmm (s : String) : Option (Nat × Nat) :=
  match split_colon s.toList with
  | [hs, ms] =>
      match two_digit_val hs, two_digit_val ms with
      | some h, some m => if h ≤ 23 && m ≤ 59 then some (h, m) else none
      | _, _ => none
  | _ => none

/-- Lowercase a string (Python `day.lower()` in `schedule_task`). -/
def lowerStr (s : String) : String := String.mk (s.toList.map Char.toLower)

/-- Modelled from the spec: the weekday names the schedule library exposes,
monday = 0 .. sunday = 6; an unrecognized name fails rule registration
(section 4.2). -/
def weekday_index (s : String) : Option Nat :=
  if s = "monday" then some 0
  else if s = "tuesday" then some 1
  else if s = "wednesday" then some 2
  else if s = "thursday" then some 3
  else if s = "friday" then some 4
  else if s = "saturday" then some 5
  else if s = "sunday" then some 6
  else none

/-- Rule registration performed by `TaskScheduler.schedule_task`: the
dispatch on `schedule_type`, `int()` and `split()` are from the source; the
library's `at()` validation and weekday lookup are modelled from the spec.
`ok none` is an unrecognized `schedule_type`, which the source silently
ignores (no branch matches, no job registered, no error). -/
def parse_rule (schedule_type schedule_time : String) :
    Except SchedError (Option Rule) :=
  if schedule_type = "interval" then
    match pyInt schedule_time with
    | some n => .ok (some (.interval n))
    | none => .error .valueError
  else if schedule_type = "hourly" then
    match parse_hourly_minute schedule_time with
    | some m => .ok (some (.hourly m))
    | none => .error .scheduleValueError
  else if schedule_type = "daily" then
    match parse_hhmm schedule_time with
    | some hm => .ok (some (.daily hm.1 hm.2))
    | none => .error .scheduleValueError
  else if schedule_type = "weekly" then
    match pySplit schedule_time with
    | [day, tstr] =>
        match weekday_index (lowerStr day) with
        | some d =>
            match parse_hhmm tstr with
            | some hm => .ok (some (.weekly d hm.1 hm.2))
            | none => .error .scheduleValueError
        | none => .error .attributeError
    | _ => .error .valueError
  else .ok none

/-- Grammar-validity of a registered rule per the spec's table in section
4.2: a positive interval, minute 00..59, hour 00..23, weekday 0..6. -/
def Rule.validb : Rule → Bool
  | .interval n => decide (0 < n)
  | .hourly m => decide (m ≤ 59)
  | .daily h m => decide (h ≤ 23 ∧ m ≤ 59)
  | .weekly d h m => decide (d ≤ 6 ∧ h ≤ 23 ∧ m ≤ 59)

/-- Modelled from the spec: the schedule library's next-fire computation,
in whole minutes since an epoch whose minute 0 starts a Monday (section
4.2): an interval rule fires `n` minutes after the reference time; the
calendar rules pick the soonest strictly-future occurrence of the named
minute-of-hour, time-of-day, or weekday-plus-time. -/
def next_fire : Rule → Nat → Int
  | .interval n, now => (now : Int) + n
  | .hourly m, now =>
      ((if now % 60 < m then now - now % 60 + m
        else now - now % 60 + 60 + m : Nat) : Int)
  | .daily h m, now =>
      ((if now % 1440 < h * 60 + m then now - now % 1440 + h * 60 + m
        else now - now % 1440 + 1440 + h * 60 + m : Nat) : Int)
  | .weekly d h m, now =>
      ((if (d + 7 - now / 1440 % 7) % 7 = 0 then
          if now % 1440 < h * 60 + m then now - now % 1440 + h * 60 + m
          else now - now % 1440 + 7 * 1440 + h * 60 + m
        else
          now - now % 1440 + ((d + 7 - now / 1440 % 7) % 7) * 1440
            + h * 60 + m : Nat) : Int)

/-- C1: for every rule accepted at registration time from a grammar-valid
(schedule_type, schedule_time) pair, the next-fire time computed at any
reference time `now` (initial scheduling or recomputation after a firing)
is strictly greater than `now`, for all four schedule types. -/
theorem next_fire_c1 (schedule_type schedule_time : String) (r : Rule)
    (now : Nat)
    (hp : parse_rule schedule_type schedule_time = .ok (some r))
    (hv : r.validb = true) :
    (now : Int) < next_fire r now := by
  clear hp
  cases r with
  | interval n =>
      have hn : 0 < n := by simpa [Rule.validb] using hv
      simp only [next_fire]
      omega
  | hourly m =>
      simp only [next_fire]
      split <;> omega
  | daily h m =>
      simp only [next_fire]
      split <;> omega
  | weekly d h m =>
      simp only [next_fire]
      split
      · split <;> omega
      · omega

/-- Witness for C1: the daily rule "02:00" registered from a valid pair,
evaluated at `now` = minute 600 (10:00 on day 0). -/
theorem next_fire_c1_witness :
    parse_rule "daily" "02:00" = .ok (some (Rule.daily 2 0)) ∧
    (Rule.daily 2 0).validb = true ∧
    (600 : Int) < next_fire (Rule.daily 2 0) 600 :=
  ⟨by decide, by decide,
    next_fire_c1 "daily" "02:00" (Rule.daily 2 0) 600 (by decide) (by decide)⟩

/-- TaskScheduler.load_tasks: if the config file exists, parse it with
`json.load` (raising on unparseable content); otherwise return the empty
list. -/
def load_tasks : Storage → Except StorageCorrupt (List Task)
  | .absent => .ok []
  | .corrupt _ => .error .jsonDecodeError
  | .content ts => .ok ts

/-- TaskScheduler.save_tasks at the logical level: overwrite the config
file with the serialization of `self.tasks` (the byte-level write sequence
is `save_tasks_ops` below). -/
def save_tasks (s : SysState) : SysState :=
  { s with storage := .content s.sched_tasks }

/-- TaskScheduler.schedule_task: register the rule parsed from the task's
(schedule_type, schedule_time) with the schedule library; `idx` is the
position of the captured task dict in `self.tasks`.  A parse failure
raises, an unknown schedule_type falls through silently, otherwise the
`job` closure is appended to the library's job list. -/
def schedule_task (s : SysState) (idx : Nat) (t : Task) :
    SysState × Except SchedError Unit :=
  match parse_rule t.schedule_type t.schedule_time with
  | .error e => (s, .error e)
  | .ok none => (s, .ok ())
  | .ok (some r) =>
      ({ s with jobs := s.jobs ++ [{ rule := r, taskIdx := idx }] }, .ok ())

/-- TaskScheduler.add_task: build the task dict with enabled = True and
last_run = None, append it to `self.tasks`, save, then schedule it.  A
scheduling error propagates after the append and save have happened. -/
def add_task (s : SysState) (name command schedule_type schedule_time : String) :
    SysState × Except SchedError Unit :=
  let task : Task :=
    { name := name, command := command, schedule_type := schedule_type,
      schedule_time := schedule_time, enabled := some true, last_run := none }
  let s1 := { s with sched_tasks := s.sched_tasks ++ [task] }
  let s2 := save_tasks s1
  schedule_task s2 (s2.sched_tasks.length - 1) task

/-- Existence test `Path(config_file).exists()` on the modelled file. -/
def storage_exists : Storage → Bool
  | .absent => false
  | .corrupt _ => true
  | .content _ => true

/-- Helper: scheduling a task never touches `self.tasks` or the config
file, whatever the parse outcome. -/
theorem schedule_task_preserves (s : SysState) (idx : Nat) (t : Task) :
    (schedule_task s idx t).1.sched_tasks = s.sched_tasks ∧
      (schedule_task s idx t).1.storage = s.storage := by
  unfold schedule_task
  cases parse_rule t.schedule_type t.schedule_time with
  | error e => exact ⟨rfl, rfl⟩
  | ok o => cases o <;> exact ⟨rfl, rfl⟩

/-- Helper: the last element of a list with one element appended. -/
theorem getLast?_append_singleton {α : Type} (l : List α) (a : α) :
    (l ++ [a]).getLast? = some a := by
  induction l with
  | nil => rfl
  | cons x xs ih =>
      cases xs with
      | nil => rfl
      | cons y ys =>
          rw [List.cons_append, List.cons_append, List.getLast?_cons_cons,
            ← List.cons_append]
          exact ih

/-- C4: after add_task(name, command, schedule_type, schedule_time), a
load() reads back a task list whose last element is a task with exactly
those four values plus enabled = true and last_run = null; this holds
whether or not the subsequent scheduling step raised, because the list is
persisted before the rule is registered. -/
theorem add_task_load_c4 (s : SysState)
    (name command schedule_type schedule_time : String) :
    load_tasks (add_task s name command schedule_type schedule_time).1.storage =
      .ok (s.sched_tasks ++
        [⟨name, command, schedule_type, schedule_time, some true, none⟩]) ∧
    (s.sched_tasks ++
        [(⟨name, command, schedule_type, schedule_time, some true, none⟩ : Task)]).getLast?
      = some ⟨name, command, schedule_type, schedule_time, some true, none⟩ := by
  constructor
  · unfold add_task
    rw [(schedule_task_preserves _ _ _).2]
    rfl
  · exact getLast?_append_singleton _ _

/-- The EXAMPLE_TASKS literal of the module.  These records carry no
`enabled` and no `last_run` key. -/
def EXAMPLE_TASKS : List Task :=
  [ { name := "System Backup",
      command := "tar -czf ~/server/backups/backup_$(date +%Y%m%d).tar.gz ~/server/data",
      schedule_type := "daily", schedule_time := "02:00",
      enabled := none, last_run := none },
    { name := "Clear Temp Files", command := "rm -rf ~/server/temp/*",
      schedule_type := "daily", schedule_time := "03:00",
      enabled := none, last_run := none },
    { name := "Check Disk Space", command := "df -h ~/server",
      schedule_type := "interval", schedule_time := "60",
      enabled := none, last_run := none },
    { name := "Update Packages", command := "pkg update && pkg upgrade -y",
      schedule_type := "weekly", schedule_time := "sunday 04:00",
      enabled := none, last_run := none } ]

/-- The scheduling loop at the top of TaskScheduler.run: walk the task
list in order (each paired with its index, standing for the dict the `job`
closure captures) and call schedule_task on every task whose `enabled` key
is not a false value, defaulting a missing key to `True`; a registration
error propagates out of run() and stops the walk. -/
def schedule_all (s : SysState) :
    List (Nat × Task) → SysState × Except SchedError Unit
  | [] => (s, .ok ())
  | (i, t) :: rest =>
      if t.enabled.getD true then
        match schedule_task s i t with
        | (s2, .ok _) => schedule_all s2 rest
        | (s2, .error e) => (s2, .error e)
      else schedule_all s rest

/-- TaskScheduler.run up to the point the polling loop starts: schedule
every enabled task of `self.tasks`. -/
def run_startup (s : SysState) : SysState × Except SchedError Unit :=
  schedule_all s s.sched_tasks.enum

/-- The startup path of the module's `__main__` block: construct
`TaskScheduler()` (which loads the task list and propagates a parse
error), then, if the config file does not exist, write `EXAMPLE_TASKS` to
it — note the scheduler's already-loaded task list is not refreshed — and
finally `scheduler.run()`, which registers every loaded task that is not
explicitly disabled (`run_startup` below). -/
def main_startup (st : Storage) :
    Except StorageCorrupt (SysState × Except SchedError Unit) :=
  match load_tasks st with
  | .error e => .error e
  | .ok ts =>
      let s : SysState := { sched_tasks := ts, storage := st, jobs := [] }
      let s2 :=
        if storage_exists st then s
        else { s with storage := .content EXAMPLE_TASKS }
      .ok (run_startup s2)

/-- C2: load() returns the empty task list when no storage exists, and
raises StorageCorrupt on unparseable content; the error propagates through
`TaskScheduler.__init__` and aborts startup instead of being swallowed or
resetting the list to empty. -/
theorem load_tasks_c2 :
    load_tasks Storage.absent = .ok [] ∧
    (∀ raw : String,
      load_tasks (Storage.corrupt raw) = .error StorageCorrupt.jsonDecodeError) ∧
    (∀ raw : String,
      main_startup (Storage.corrupt raw) = .error StorageCorrupt.jsonDecodeError) :=
  ⟨rfl, fun _ => rfl, fun _ => rfl⟩

/-- C3: when the schedule_time fails to parse for its schedule_type, the
error surfaces from add_task at registration time, yet the resulting state
has the task appended with enabled = true and persisted, while the
schedule library's job set is unchanged (the task is never scheduled). -/
theorem add_task_invalid_c3 (s : SysState)
    (name command schedule_type schedule_time : String) (e : SchedError)
    (h : parse_rule schedule_type schedule_time = .error e) :
    add_task s name command schedule_type schedule_time =
      ({ sched_tasks := s.sched_tasks ++
           [⟨name, command, schedule_type, schedule_time, some true, none⟩],
         storage := Storage.content (s.sched_tasks ++
           [⟨name, command, schedule_type, schedule_time, some true, none⟩]),
         jobs := s.jobs }, .error e) := by
  simp [add_task, save_tasks, schedule_task, h]

/-- Witness for C3: the spec's example, a daily task with the invalid spec
"25:99", added to an empty scheduler. -/
theorem add_task_invalid_c3_witness :
    parse_rule "daily" "25:99" = .error SchedError.scheduleValueError ∧
    add_task { sched_tasks := [], storage := .absent, jobs := [] }
        "bad" "echo hi" "daily" "25:99" =
      ({ sched_tasks := [⟨"bad", "echo hi", "daily", "25:99", some true, none⟩],
         storage :=
           Storage.content [⟨"bad", "echo hi", "daily", "25:99", some true, none⟩],
         jobs := [] }, .error SchedError.scheduleValueError) :=
  ⟨by decide, add_task_invalid_c3 _ "bad" "echo hi" "daily" "25:99" _ (by decide)⟩

/-- C6: with no storage file at startup, the module writes EXAMPLE_TASKS to
the config file, but the scheduler — constructed, and its task list loaded,
before the seeding — starts its first run with an empty task list and an
empty job set, while a scheduler whose task list did hold EXAMPLE_TASKS
would have registered all four jobs.  This contradicts the claim that the
seeded tasks are loaded and scheduled on that same first run. -/
theorem first_run_seed_c6 :
    main_startup Storage.absent =
      .ok ({ sched_tasks := [], storage := .content EXAMPLE_TASKS, jobs := [] },
           .ok ()) ∧
    EXAMPLE_TASKS.length = 4 ∧
    (run_startup { sched_tasks := EXAMPLE_TASKS,
                   storage := .content EXAMPLE_TASKS, jobs := [] }).1.jobs.length
      = 4 := by
  refine ⟨rfl, rfl, ?_⟩
  decide

/-- Result of `subprocess.run(command, shell=True, capture_output=True,
text=True)` when the shell could be invoked: captured streams and exit
status; a non-zero status is data, not an exception. -/
structure ExecResult where
  stdout : String
  stderr : String
  returncode : Int
deriving DecidableEq, Repr

/-- Name of the task dict at position `idx` of the scheduler's task list
(used in the `job` closure's log lines). -/
def task_name (s : SysState) (idx : Nat) : String :=
  ((s.sched_tasks[idx]?).map Task.name).getD ""

/-- Replace the `last_run` field of the task at position `idx` (the
closure's `task['last_run'] = datetime.now().isoformat()` assignment, seen
through `self.tasks`, which holds the same dict). -/
def set_last_run : List Task → Nat → String → List Task
  | [], _, _ => []
  | t :: ts, 0, now => { t with last_run := some now } :: ts
  | t :: ts, n + 1, now => t :: set_last_run ts n now

/-- One firing: the `job` closure built by `schedule_task` for the task at
`idx`.  `outcome` is what `subprocess.run` did: `ok` with a result of any
exit status, or `error` when invoking the command itself raised.  On `ok`
the closure logs the output (and stderr when nonempty), stamps the task's
`last_run` with the completion time `now`, and saves; on `error` the
`except` branch only logs, leaving all state untouched.  The second
component collects the printed lines. -/
def run_job (s : SysState) (idx : Nat) (outcome : Except String ExecResult)
    (now : String) : SysState × List String :=
  match outcome with
  | .ok r =>
      ({ s with sched_tasks := set_last_run s.sched_tasks idx now,
                storage := Storage.content (set_last_run s.sched_tasks idx now) },
       ["Running task: " ++ task_name s idx, "Output: " ++ r.stdout] ++
         (if r.stderr ≠ "" then ["Error: " ++ r.stderr] else []))
  | .error e =>
      (s, ["Running task: " ++ task_name s idx,
           "Error running task " ++ task_name s idx ++ ": " ++ e])

/-- Helper: `set_last_run` keeps the list length. -/
theorem set_last_run_length (ts : List Task) (i : Nat) (now : String) :
    (set_last_run ts i now).length = ts.length := by
  induction ts generalizing i with
  | nil => rfl
  | cons t rest ih =>
      cases i with
      | zero => rfl
      | succ k => simpa [set_last_run] using ih k

/-- Helper: `set_last_run` leaves every other position untouched. -/
theorem set_last_run_ne (ts : List Task) (i j : Nat) (now : String)
    (h : j ≠ i) :
    (set_last_run ts i now)[j]? = ts[j]? := by
  induction ts generalizing i j with
  | nil => rfl
  | cons t rest ih =>
      cases i with
      | zero =>
          cases j with
          | zero => exact absurd rfl h
          | succ k => simp [set_last_run]
      | succ k =>
          cases j with
          | zero => simp [set_last_run]
          | succ m =>
              simp only [set_last_run, List.getElem?_cons_succ]
              exact ih k m (fun hh => h (by rw [hh]))

/-- Helper: at position `i` itself, `set_last_run` rewrites exactly the
`last_run` field. -/
theorem set_last_run_self (ts : List Task) (i : Nat) (now : String)
    (h : i < ts.length) :
    ∃ t, ts[i]? = some t ∧
      (set_last_run ts i now)[i]? = some { t with last_run := some now } := by
  induction ts generalizing i with
  | nil => simp at h
  | cons t rest ih =>
      cases i with
      | zero => exact ⟨t, by simp, by simp [set_last_run]⟩
      | succ k =>
          simp only [set_last_run, List.getElem?_cons_succ]
          exact ih k (by simpa using h)

/-- C7: a firing whose command returned a non-zero exit status is not an
exception: the job completes normally, the task's last_run is stamped with
the completion time both in memory and in the freshly saved storage, the
stderr text is surfaced in the log, and the job set is unchanged, so the
job waits for its next occurrence. -/
theorem firing_nonzero_exit_c7 (s : SysState) (idx : Nat) (r : ExecResult)
    (now : String) (hidx : idx < s.sched_tasks.length)
    (hcode : r.returncode ≠ 0) :
    (run_job s idx (.ok r) now).1.jobs = s.jobs ∧
    (run_job s idx (.ok r) now).1.storage =
      Storage.content (run_job s idx (.ok r) now).1.sched_tasks ∧
    (∃ t, s.sched_tasks[idx]? = some t ∧
      (run_job s idx (.ok r) now).1.sched_tasks[idx]? =
        some { t with last_run := some now }) ∧
    (r.stderr ≠ "" → ("Error: " ++ r.stderr) ∈ (run_job s idx (.ok r) now).2) := by
  refine ⟨rfl, rfl, ?_, ?_⟩
  · simpa [run_job] using set_last_run_self s.sched_tasks idx now hidx
  · intro hs
    simp [run_job, hs]

/-- A concrete one-task state for the firing witnesses. -/
def taskA : Task :=
  { name := "Check Disk Space", command := "df -h ~/server",
    schedule_type := "interval", schedule_time := "60",
    enabled := some true, last_run := none }

/-- A concrete scheduler state holding `taskA`, already scheduled. -/
def stA : SysState :=
  { sched_tasks := [taskA], storage := Storage.content [taskA],
    jobs := [{ rule := Rule.interval 60, taskIdx := 0 }] }

/-- A failed command execution: exit status 1 with error text. -/
def execA : ExecResult := { stdout := "", stderr := "boom", returncode := 1 }

/-- Witness for C7: firing `taskA`'s command which exits with status 1. -/
theorem firing_nonzero_exit_c7_witness :
    (run_job stA 0 (.ok execA) "2024-01-01T00:00:00").1.jobs = stA.jobs ∧
    (run_job stA 0 (.ok execA) "2024-01-01T00:00:00").1.storage =
      Storage.content (run_job stA 0 (.ok execA) "2024-01-01T00:00:00").1.sched_tasks ∧
    (∃ t, stA.sched_tasks[0]? = some t ∧
      (run_job stA 0 (.ok execA) "2024-01-01T00:00:00").1.sched_tasks[0]? =
        some { t with last_run := some "2024-01-01T00:00:00" }) ∧
    (execA.stderr ≠ "" →
      ("Error: " ++ execA.stderr) ∈ (run_job stA 0 (.ok execA) "2024-01-01T00:00:00").2) :=
  firing_nonzero_exit_c7 stA 0 execA "2024-01-01T00:00:00" (by decide) (by decide)

/-- C9: one completed firing rewrites only the fired task's last_run
field: the list keeps its length, every other position is unchanged, the
fired task keeps its other five fields, and the storage written right
after the firing holds exactly the updated in-memory list; the job
registry is untouched. -/
theorem firing_frame_c9 (s : SysState) (idx : Nat) (r : ExecResult)
    (now : String) (hidx : idx < s.sched_tasks.length) :
    (run_job s idx (.ok r) now).1.sched_tasks.length = s.sched_tasks.length ∧
    (∀ j, j ≠ idx →
      (run_job s idx (.ok r) now).1.sched_tasks[j]? = s.sched_tasks[j]?) ∧
    (∃ t, s.sched_tasks[idx]? = some t ∧
      (run_job s idx (.ok r) now).1.sched_tasks[idx]? =
        some { name := t.name, command := t.command,
               schedule_type := t.schedule_type,
               schedule_time := t.schedule_time, enabled := t.enabled,
               last_run := some now }) ∧
    (run_job s idx (.ok r) now).1.storage =
      Storage.content (run_job s idx (.ok r) now).1.sched_tasks ∧
    (run_job s idx (.ok r) now).1.jobs = s.jobs := by
  refine ⟨?_, ?_, ?_, rfl, rfl⟩
  · simpa [run_job] using set_last_run_length s.sched_tasks idx now
  · intro j hj
    simpa [run_job] using set_last_run_ne s.sched_tasks idx j now hj
  · simpa [run_job] using set_last_run_self s.sched_tasks idx now hidx

/-- Witness for C9: the frame of the same concrete firing. -/
theorem firing_frame_c9_witness :
    (run_job stA 0 (.ok execA) "T").1.sched_tasks.length = stA.sched_tasks.length ∧
    (∀ j, j ≠ 0 →
      (run_job stA 0 (.ok execA) "T").1.sched_tasks[j]? = stA.sched_tasks[j]?) ∧
    (∃ t, stA.sched_tasks[0]? = some t ∧
      (run_job stA 0 (.ok execA) "T").1.sched_tasks[0]? =
        some { name := t.name, command := t.command,
               schedule_type := t.schedule_type,
               schedule_time := t.schedule_time, enabled := t.enabled,
               last_run := some "T" }) ∧
    (run_job stA 0 (.ok execA) "T").1.storage =
      Storage.content (run_job stA 0 (.ok execA) "T").1.sched_tasks ∧
    (run_job stA 0 (.ok execA) "T").1.jobs = stA.jobs :=
  firing_frame_c9 stA 0 execA "T" (by decide)

/-- Did `subprocess.run` return at all (as opposed to raising)? -/
def execOk : Except String ExecResult → Bool
  | .ok _ => true
  | .error _ => false

/-- One tick of the poll loop, `schedule.run_pending()`: walk the job
registry and fire every due job in turn, threading the scheduler state.
`fire i` is what invoking job `i`'s command did this tick, `due i` whether
its next-fire time has passed. -/
def run_pending (s : SysState) (fire : Nat → Except String ExecResult)
    (due : Nat → Bool) (now : String) : SysState :=
  (List.range s.jobs.length).foldl
    (fun st i =>
      if due i then
        (run_job st (((s.jobs[i]?).map Job.taskIdx).getD 0) (fire i) now).1
      else st)
    s

/-- Helper: a fold whose step preserves the job registry preserves it. -/
theorem foldl_jobs_invariant (f : SysState → Nat → SysState)
    (hf : ∀ st i, (f st i).jobs = st.jobs) (l : List Nat) (s : SysState) :
    (l.foldl f s).jobs = s.jobs := by
  induction l generalizing s with
  | nil => rfl
  | cons a l ih => rw [List.foldl_cons, ih, hf]

/-- Helper: folds of pointwise-equal step functions agree. -/
theorem foldl_congr_fun (f g : SysState → Nat → SysState)
    (h : ∀ st i, f st i = g st i) (l : List Nat) (s : SysState) :
    l.foldl f s = l.foldl g s := by
  induction l generalizing s with
  | nil => rfl
  | cons a l ih => rw [List.foldl_cons, List.foldl_cons, h, ih]

/-- Helper: a firing never changes the job registry, whatever the
outcome. -/
theorem run_job_jobs (st : SysState) (idx : Nat)
    (o : Except String ExecResult) (now : String) :
    (run_job st idx o now).1.jobs = st.jobs := by
  cases o <;> rfl

/-- C8: an executor-level exception during one firing is caught inside
that firing: the `except` branch leaves the whole state unchanged, one
tick of the poll loop is a total function that keeps every job registered
(the loop goes on polling them all), and a tick in which some firings
raise equals the tick that simply skips those firings — the other jobs'
firings happen exactly as they would have. -/
theorem poll_isolation_c8 (s : SysState)
    (fire : Nat → Except String ExecResult) (due : Nat → Bool)
    (now : String) :
    (∀ st idx e t, (run_job st idx (.error e) t).1 = st) ∧
    (run_pending s fire due now).jobs = s.jobs ∧
    run_pending s fire due now =
      run_pending s fire (fun i => due i && execOk (fire i)) now := by
  refine ⟨fun st idx e t => rfl, ?_, ?_⟩
  · refine foldl_jobs_invariant _ (fun st i => ?_) _ _
    dsimp only
    split
    · exact run_job_jobs ..
    · rfl
  · unfold run_pending
    refine foldl_congr_fun _ _ (fun st i => ?_) _ _
    cases hf : fire i with
    | error e => cases hd : due i <;> simp [execOk, run_job, hf, hd]
    | ok r => cases hd : due i <;> simp [execOk, hf, hd]

/-- Helper: a task's `enabled` key defaults to true exactly when it is not
an explicit false. -/
theorem enabled_getD_eq (o : Option Bool) :
    o.getD true = !(o == some false) := by
  cases o with
  | none => rfl
  | some b => cases b <;> rfl

/-- Helper: the walk over the task list in run() behaves as if the tasks
carrying an explicit enabled = false had been filtered out first. -/
theorem schedule_all_filter (s : SysState) (l : List (Nat × Task)) :
    schedule_all s l =
      schedule_all s (l.filter fun p => !(p.2.enabled == some false)) := by
  induction l generalizing s with
  | nil => rfl
  | cons p rest ih =>
      obtain ⟨i, t⟩ := p
      rw [List.filter_cons]
      by_cases hb : t.enabled.getD true
      · have hf : (!(t.enabled == some false)) = true := by
          rw [← enabled_getD_eq, hb]
        rw [if_pos hf]
        simp only [schedule_all, hb, if_true]
        cases hst : schedule_task s i t with
        | mk s2 res =>
            cases res with
            | ok u => exact ih s2
            | error e => rfl
      · have hf : (!(t.enabled == some false)) = false := by
          rw [← enabled_getD_eq]
          exact Bool.not_eq_true _ ▸ (by simpa using hb)
        rw [if_neg (by simp [hf])]
        simp only [schedule_all, hb, if_false]
        exact ih s

/-- C10: a loaded task record with no `enabled` key at all is scheduled by
run() exactly as if it carried enabled = true, and the scheduling walk as
a whole skips exactly the tasks carrying an explicit enabled = false. -/
theorem enabled_default_c10 (s : SysState) (i : Nat) (t : Task)
    (l : List (Nat × Task)) (h : t.enabled = none) :
    run_startup s =
      schedule_all s
        (s.sched_tasks.enum.filter fun p => !(p.2.enabled == some false)) ∧
    schedule_all s ((i, t) :: l) =
      schedule_all s ((i, { t with enabled := some true }) :: l) := by
  constructor
  · unfold run_startup
    exact schedule_all_filter s _
  · simp only [schedule_all, h]
    rfl

/-- A one-task state whose task lacks the `enabled` key (the seeded
example tasks are such records). -/
def stB : SysState :=
  { sched_tasks := EXAMPLE_TASKS, storage := Storage.content EXAMPLE_TASKS,
    jobs := [] }

/-- The first seeded example task, which carries no `enabled` key. -/
def exTask0 : Task :=
  { name := "System Backup",
    command := "tar -czf ~/server/backups/backup_$(date +%Y%m%d).tar.gz ~/server/data",
    schedule_type := "daily", schedule_time := "02:00",
    enabled := none, last_run := none }

/-- Witness for C10: the seeded example tasks, none of which carries an
`enabled` key, behave as enabled. -/
theorem enabled_default_c10_witness :
    run_startup stB =
      schedule_all stB
        (stB.sched_tasks.enum.filter fun p => !(p.2.enabled == some false)) ∧
    schedule_all stB [(0, exTask0)] =
      schedule_all stB [(0, { exTask0 with enabled := some true })] :=
  enabled_default_c10 stB 0 exTask0 [] rfl

/-- Concatenate strings with comma separators. -/
def joinComma : List String → String
  | [] => ""
  | [x] => x
  | x :: rest => x ++ ", " ++ joinComma rest

/-- Wrap a string in JSON double quotes. -/
def jsonStr (s : String) : String := "\"" ++ s ++ "\""

/-- Modelled from the spec: the text serialization of one task record, as
json.dump (Python standard library, not under src) writes the dict; a
missing `enabled` key is omitted, a null `last_run` is written as null. -/
def serializeTask (t : Task) : String :=
  "\x7b" ++ jsonStr "name" ++ ": " ++ jsonStr t.name ++ ", " ++
    jsonStr "command" ++ ": " ++ jsonStr t.command ++ ", " ++
    jsonStr "schedule_type" ++ ": " ++ jsonStr t.schedule_type ++ ", " ++
    jsonStr "schedule_time" ++ ": " ++ jsonStr t.schedule_time ++
    (match t.enabled with
     | none => ""
     | some true => ", " ++ jsonStr "enabled" ++ ": true"
     | some false => ", " ++ jsonStr "enabled" ++ ": false") ++
    (match t.last_run with
     | none => ", " ++ jsonStr "last_run" ++ ": null"
     | some ts => ", " ++ jsonStr "last_run" ++ ": " ++ jsonStr ts) ++
    "\x7d"

/-- Modelled from the spec: the text serialization of the whole task list
(a JSON array). -/
def serializeTasks (ts : List Task) : String :=
  "[" ++ joinComma (ts.map serializeTask) ++ "]"

/-- A primitive file-system step: opening a path for writing (which
truncates it), writing data to an open path, or renaming a path over
another. -/
inductive FsOp
  | openw (path : String)
  | write (path : String) (data : String)
  | rename (src : String) (dst : String)
deriving DecidableEq, Repr

/-- Is a step a rename? -/
def FsOp.isRename : FsOp → Bool
  | .rename _ _ => true
  | _ => false

/-- Effect of one step on a file system (paths to contents). -/
def applyOp (fs : String → Option String) : FsOp → String → Option String
  | .openw p => fun q => if q = p then some "" else fs q
  | .write p d => fun q => if q = p then some (((fs p).getD "") ++ d) else fs q
  | .rename src dst =>
      fun q => if q = dst then fs src else if q = src then none else fs q

/-- Effect of a step sequence on a file system. -/
def applyOps (fs : String → Option String) (ops : List FsOp) :
    String → Option String :=
  ops.foldl applyOp fs

/-- TaskScheduler.save_tasks at the byte level:
`open(self.config_file, 'w')` truncates the target in place, then
`json.dump` writes the serialized list into it.  No temporary file and no
rename appear anywhere in the function. -/
def save_tasks_ops (config_file : String) (ts : List Task) : List FsOp :=
  [.openw config_file, .write config_file (serializeTasks ts)]

/-- A second concrete task, giving previously-persisted file contents
distinct from a fresh save of `taskA`. -/
def taskB : Task :=
  { name := "System Backup",
    command := "tar -czf ~/server/backups/backup_$(date +%Y%m%d).tar.gz ~/server/data",
    schedule_type := "daily", schedule_time := "02:00",
    enabled := some true, last_run := none }

/-- A file system whose tasks.json holds a previously persisted valid
task list. -/
def fsA : String → Option String :=
  fun p => if p = "tasks.json" then some (serializeTasks [taskB]) else none

/-- C5 counterexample: interrupting save_tasks after its first step (the
truncating open, before json.dump has written anything) leaves tasks.json
empty — neither the previously persisted valid content nor the new one —
and the write sequence contains no rename step at all, so the write does
not go through a temporary file renamed over the target. -/
theorem save_not_atomic_c5_counterexample :
    applyOps fsA ((save_tasks_ops "tasks.json" [taskA]).take 1) "tasks.json"
        = some "" ∧
    applyOps fsA ((save_tasks_ops "tasks.json" [taskA]).take 1) "tasks.json"
        ≠ fsA "tasks.json" ∧
    applyOps fsA ((save_tasks_ops "tasks.json" [taskA]).take 1) "tasks.json"
        ≠ some (serializeTasks [taskA]) ∧
    (save_tasks_ops "tasks.json" [taskA]).all (fun op => !op.isRename) = true := by
  refine ⟨rfl, ?_, ?_, rfl⟩ <;> decide

/-- C5 as amended: save_tasks writes the serialized task list directly to
the target file — a truncating open followed by the write, with no
temporary file and no rename — so the previous content is destroyed
before the new content is complete: a crash between the two steps leaves
an empty file, while the completed sequence leaves the new serialization. -/
theorem save_tasks_direct_write_c5 (config_file : String) (ts : List Task)
    (fs : String → Option String) :
    save_tasks_ops config_file ts =
      [FsOp.openw config_file, FsOp.write config_file (serializeTasks ts)] ∧
    applyOps fs ((save_tasks_ops config_file ts).take 1) config_file
      = some "" ∧
    applyOps fs (save_tasks_ops config_file ts) config_file
      = some (serializeTasks ts) := by
  refine ⟨rfl, ?_, ?_⟩ <;>
    simp [save_tasks_ops, applyOps, applyOp]

end NPS
